import Mathlib

/-!
# Verification of the message-port subsystem (`src/node_messaging.cc`)

A shallow embedding of the message-port implementation:

* the codec level (`Message.Serialize` / `Message.Deserialize`), with the
  embedding runtime's value encoder/decoder treated as an oracle (its body
  write either yields a blob or fails);
* the port level (`MessagePortData`, `MessagePort`): incoming queue,
  entanglement/disentanglement, send, post_message, start/stop, and the
  delivery loop `MessagePort::OnMessage`.

Machine pointers are modelled by `Nat` identifiers, buffers by lists of
bytes, and the two members of an entangled pair by an explicit two-sided
state.  All definitions are computable and mirror the control flow of the
C++ source line by line.
-/

namespace NodeMessaging

/-- A V8 `ArrayBuffer` as visible to `Message::Serialize`: whether it can be
neutered, whether its backing store is already external, whether it has been
neutered (detached), and its byte contents. -/
structure ABuf where
  neuterable : Bool
  external : Bool
  neutered : Bool
  data : List Nat
  deriving DecidableEq, Repr

/-- The default `ABuf` used for out-of-range lookups. -/
def ABuf.null : ABuf := ⟨false, false, false, []⟩

/-- An entry of the transfer list passed to `Message::Serialize`: either an
`ArrayBuffer` (referenced by its index in the sender's domain) or any other
kind of value (`entry->IsArrayBuffer()` is false). -/
inductive TEntry where
  | ab (i : Nat)
  | other
  deriving DecidableEq, Repr

/-- `Message`: the serialized main blob (`main_message_buf_`, empty for a
default-constructed message) and the ordered list of externalized
array-buffer contents (`array_buffer_contents_`). -/
structure Message where
  main_message_buf : List Nat
  array_buffer_contents : List (List Nat)
  deriving DecidableEq, Repr

/-- A default-constructed `Message`. -/
def Message.empty : Message := ⟨[], []⟩

/-- Outcome of `Message::Serialize` as seen by the caller: success, a thrown
`ERR_INVALID_TRANSFER_OBJECT`, or a codec error from `WriteValue`. -/
inductive SerStatus where
  | ok
  | errInvalidTransferObject
  | errCodec
  deriving DecidableEq, Repr

/-- `!ab->IsNeuterable() || ab->IsExternal()` causes a `continue` in the
transfer-list loop; a buffer is transferable iff it is neuterable and not
external. -/
def detachable (dom : List ABuf) (i : Nat) : Bool :=
  let b := dom.getD i ABuf.null
  b.neuterable && !b.external

/-- Accumulator of the transfer-list loop: the `array_buffers` vector and
the sequence of `serializer.TransferArrayBuffer(id, ab)` registrations
(pairs of assigned id and buffer index), in call order. -/
structure ScanAcc where
  array_buffers : List Nat
  registrations : List (Nat × Nat)
  deriving DecidableEq, Repr

/-- The transfer-list loop of `Message::Serialize`: a non-array-buffer entry
throws `ERR_INVALID_TRANSFER_OBJECT` and aborts (`none`); a non-detachable
array buffer is skipped; a detachable one is appended to `array_buffers`
and registered with the serializer under the id `array_buffers.size()`. -/
def scanTransferList (dom : List ABuf) : List TEntry → ScanAcc → Option ScanAcc
  | [], acc => some acc
  | TEntry.ab i :: rest, acc =>
      if detachable dom i then
        scanTransferList dom rest
          ⟨acc.array_buffers ++ [i],
           acc.registrations ++ [(acc.array_buffers.length, i)]⟩
      else
        scanTransferList dom rest acc
  | TEntry.other :: _, _ => none

/-- `ab->Externalize(); ab->Neuter();` on the buffer at index `i` of the
sender's domain: the backing store becomes external and the buffer is
detached (zero length). -/
def neuterAt (dom : List ABuf) (i : Nat) : List ABuf :=
  dom.set i { dom.getD i ABuf.null with neutered := true, external := true, data := [] }

/-- The post-success externalization loop of `Message::Serialize`: for each
surviving buffer, steal its contents (pushed onto `array_buffer_contents_`)
and neuter it in the sender's domain. -/
def externalizeAll (dom : List ABuf) : List Nat → List (List Nat) × List ABuf
  | [] => ([], dom)
  | i :: rest =>
      let contents := (dom.getD i ABuf.null).data
      let res := externalizeAll (neuterAt dom i) rest
      (contents :: res.1, res.2)

/-- `Message::Serialize`.  `transfer_list_v` is `none` when the transfer
list argument is not an array (`transfer_list_v->IsArray()` false), in which
case the scan is skipped.  `encodeBody` is the oracle for the embedding
runtime's `serializer.WriteValue`: `some blob` when the body write succeeds
(the blob being what `serializer.Release()` later yields), `none` on a codec
error.  Returns the status together with the message and sender domain after
the call; all mutation of the message and the domain happens only on the
success path, mirroring the source order of operations. -/
def Message.Serialize (msg : Message) (dom : List ABuf)
    (transfer_list_v : Option (List TEntry)) (encodeBody : Option (List Nat)) :
    SerStatus × Message × List ABuf :=
  let scanned : Option ScanAcc :=
    match transfer_list_v with
    | some entries => scanTransferList dom entries ⟨[], []⟩
    | none => some ⟨[], []⟩
  match scanned with
  | none => (SerStatus.errInvalidTransferObject, msg, dom)
  | some acc =>
      match encodeBody with
      | none => (SerStatus.errCodec, msg, dom)
      | some blob =>
          let ext := externalizeAll dom acc.array_buffers
          (SerStatus.ok,
           { main_message_buf := blob,
             array_buffer_contents := msg.array_buffer_contents ++ ext.1 },
           ext.2)

/-- The surviving transfer list of a `Serialize` call: the `array_buffers`
vector produced by the scan, or `[]` when the scan aborts or the transfer
list is not an array. -/
def survivingBuffers (dom : List ABuf) (transfer_list_v : Option (List TEntry)) :
    List Nat :=
  match transfer_list_v with
  | none => []
  | some entries =>
      match scanTransferList dom entries ⟨[], []⟩ with
      | some acc => acc.array_buffers
      | none => []

/-- `ArrayBuffer::New(isolate, data, size, kInternalized)`: the buffer a
transferred content region becomes in the receiver's domain. -/
def mkInternalized (contents : List Nat) : ABuf :=
  { neuterable := true, external := false, neutered := false, data := contents }

/-- The attach loop of `Message::Deserialize`: each entry of
`array_buffer_contents_` is released into a new internalized `ArrayBuffer`
of the receiver's domain (and registered with the deserializer under its
index). -/
def attachAll (rdom : List ABuf) : List (List Nat) → List ABuf
  | [] => rdom
  | c :: rest => attachAll (rdom ++ [mkInternalized c]) rest

/-- `Message::Deserialize`.  `headerOk` is the oracle for
`deserializer.ReadHeader` and `readValue` the oracle for
`deserializer.ReadValue` (`some v` on success).  The transferred buffers are
attached to the receiver's domain and the contents list cleared before the
header is read; the result is the read value (`none` for an empty
`MaybeLocal`), the message after the call, and the receiver's domain after
the call. -/
def Message.Deserialize (msg : Message) (rdom : List ABuf)
    (headerOk : Bool) (readValue : Option Nat) :
    Option Nat × Message × List ABuf :=
  let rdom' := attachAll rdom msg.array_buffer_contents
  let msg' := { msg with array_buffer_contents := [] }
  if headerOk then
    (readValue, msg', rdom')
  else
    (none, msg', rdom')

/-- A message as seen by the delivery loop, with oracles for the outcome of
its `Deserialize` call (`deserializeOk`: `args[0]` non-empty) and of the
user's `.onmessage` callback (`callbackOk`: `MakeCallback` non-empty). -/
structure DMsg where
  payload : Nat
  deserializeOk : Bool
  callbackOk : Bool
  deriving DecidableEq, Repr

/-- Events and final queue of one `MessagePort::OnMessage` run:
the queue left behind, the payloads passed to `.onmessage` (one per
`MakeCallback` invocation, in order), whether `TriggerAsync` was re-armed,
and whether the run returned early from inside the loop (skipping the
final sibling-closed check). -/
structure LoopOut where
  incoming : List DMsg
  calls : List Nat
  rearmed : Bool
  earlyReturn : Bool
  deriving DecidableEq, Repr

/-- The `while (data_)` loop of `MessagePort::OnMessage`.  `canCall` is
`env()->can_call_into_js()`, `hasHandler` is
`object()->Has(context, onmessage_string)`, `hasData` whether `data_` is
non-null and `receiving` the queue's `receiving_messages_` flag (user
callbacks are modelled as leaving the port untouched, so both stay fixed
across iterations).  A message whose `Deserialize` yields an empty value
short-circuits the `||` chain, so `MakeCallback` runs only when
`deserializeOk && hasHandler`; any failure re-arms the async handle (as
`data_` is still owned) and returns early. -/
def onMessageLoop (canCall hasHandler hasData receiving : Bool) :
    List DMsg → LoopOut
  | [] => ⟨[], [], false, false⟩
  | m :: rest =>
      if hasData && receiving then
        if canCall then
          if m.deserializeOk && hasHandler && m.callbackOk then
            let r := onMessageLoop canCall hasHandler hasData receiving rest
            ⟨r.incoming, m.payload :: r.calls, r.rearmed, r.earlyReturn⟩
          else
            ⟨rest, if m.deserializeOk && hasHandler then [m.payload] else [],
             hasData, true⟩
        else
          onMessageLoop canCall hasHandler hasData receiving rest
      else
        ⟨m :: rest, [], false, false⟩

/-- `MessagePort::OnMessage`: run the delivery loop, then
`if (data_ && data_->IsSiblingClosed()) Close();` — the close check is
reached only when the loop was not left by the early `return`.
`siblingNull` is whether `data_->sibling_` is null.  Returns the loop
events together with whether the port was closed. -/
def onMessage (canCall hasHandler hasData receiving siblingNull : Bool)
    (q : List DMsg) : LoopOut × Bool :=
  let r := onMessageLoop canCall hasHandler hasData receiving q
  (r, !r.earlyReturn && hasData && siblingNull)

/-- `MessagePortData::AddToIncomingQueue` (queue part): append at the back
of `incoming_messages_` under the queue mutex. -/
def addToIncomingQueue (q : List DMsg) (m : DMsg) : List DMsg := q ++ [m]

/-- The port-data state toggled by `Start`/`Stop`. -/
structure PortDataM where
  incoming : List DMsg
  receiving : Bool
  deriving DecidableEq, Repr

/-- `MessagePort::Start`: set `receiving_messages_` and signal the async
handle when the queue is non-empty.  Returns the new state and whether
`TriggerAsync` fired. -/
def portStart (d : PortDataM) : PortDataM × Bool :=
  ({ d with receiving := true }, !d.incoming.isEmpty)

/-- `MessagePort::Stop`: clear `receiving_messages_`. -/
def portStop (d : PortDataM) : PortDataM :=
  { d with receiving := false }

/-- `MessagePort::New(env, context, data)` (the adopt variant): when a
pre-existing `MessagePortData` is supplied, the fresh port detaches its own
data, adopts the supplied one and unconditionally calls `TriggerAsync()`;
otherwise the port keeps its fresh empty data.  Returns the port's data and
whether `TriggerAsync` fired. -/
def newPort (data : Option PortDataM) : PortDataM × Bool :=
  match data with
  | some d => (d, true)
  | none => (⟨[], false⟩, false)

/-- `void MessagePort::Send(Message&&)` together with the serialization in
`MessagePort::Send(const FunctionCallbackInfo&)`: serialize `args[0]` with
transfer list `args[1]`; on failure return with the error pending; on
success, under the sibling mutex, drop the message if `sibling_` is null,
else append it to the sibling's incoming queue.  Returns the status, the
sender's domain and the sibling's queue after the call. -/
def portSendArgs (dom : List ABuf) (transfer_list_v : Option (List TEntry))
    (encodeBody : Option (List Nat)) (siblingNull : Bool)
    (siblingQueue : List Message) :
    SerStatus × List ABuf × List Message :=
  match Message.Serialize Message.empty dom transfer_list_v encodeBody with
  | (SerStatus.ok, msg, dom') =>
      if siblingNull then (SerStatus.ok, dom', siblingQueue)
      else (SerStatus.ok, dom', siblingQueue ++ [msg])
  | (st, _, dom') => (st, dom', siblingQueue)

/-- Outcome of `MessagePort::PostMessage` before any serialization work. -/
inductive PostErr where
  | closedMessagePort
  | missingArgs
  deriving DecidableEq, Repr

/-- `MessagePort::PostMessage`: throw `ERR_CLOSED_MESSAGE_PORT` when
`data_` is gone, then `ERR_MISSING_ARGS` when called with zero arguments;
only otherwise call `Send(args)`.  Returns the guard error (if any), the
sibling queue after the call, and whether `Serialize` was reached. -/
def postMessage (hasData : Bool) (nargs : Nat) (dom : List ABuf)
    (transfer_list_v : Option (List TEntry)) (encodeBody : Option (List Nat))
    (siblingNull : Bool) (siblingQueue : List Message) :
    Option PostErr × List Message × Bool :=
  if !hasData then
    (some PostErr.closedMessagePort, siblingQueue, false)
  else if nargs = 0 then
    (some PostErr.missingArgs, siblingQueue, false)
  else
    (none,
     (portSendArgs dom transfer_list_v encodeBody siblingNull siblingQueue).2.2,
     true)

/-- The state of one entangled pair of `MessagePortData` objects `A`, `B`:
whether each one's `sibling_` pointer is set (to the other), the identity
of the `Mutex` each one's `sibling_mutex_` shared pointer refers to, and a
fresh-allocation counter (`make_shared<Mutex>()` yields id `fresh`; every
live mutex id is below `fresh`). -/
structure PairState where
  siblingA : Bool
  siblingB : Bool
  mutexA : Nat
  mutexB : Nat
  fresh : Nat
  deriving DecidableEq, Repr

/-- `MessagePortData::Entangle(a, b)` (preconditions `CHECK_EQ(a->sibling_,
nullptr)` and likewise for `b` are stated on the theorems): set the two
sibling pointers and make `A` share `B`'s sibling mutex. -/
def entangle (s : PairState) : PairState :=
  { s with siblingA := true, siblingB := true, mutexA := s.mutexB }

/-- `MessagePortData::Disentangle` called on `A`: replace `A`'s
`sibling_mutex_` by a freshly allocated mutex (under the old one), and if
`A` had a sibling, clear both sibling pointers. -/
def disentangleA (s : PairState) : PairState :=
  { s with mutexA := s.fresh, fresh := s.fresh + 1,
           siblingB := if s.siblingA then false else s.siblingB,
           siblingA := false }

/-- `MessagePortData::Disentangle` called on `B` (symmetric). -/
def disentangleB (s : PairState) : PairState :=
  { s with mutexB := s.fresh, fresh := s.fresh + 1,
           siblingA := if s.siblingB then false else s.siblingA,
           siblingB := false }

/-- `MessagePortData::IsSiblingClosed` on `A`: `sibling_ == nullptr` under
the sibling mutex. -/
def isSiblingClosedA (s : PairState) : Bool := !s.siblingA

/-- `MessagePortData::IsSiblingClosed` on `B`. -/
def isSiblingClosedB (s : PairState) : Bool := !s.siblingB

/-- A later sibling-pointer-affecting operation on the pair:
`Disentangle` on `A` (`true`) or on `B` (`false`) — the only operations of
the source that write a `sibling_` field besides `Entangle`, whose
`CHECK_EQ` precondition restricts it to never-entangled port data. -/
def disOp (onA : Bool) (s : PairState) : PairState :=
  if onA then disentangleA s else disentangleB s

/-- A sequence of later `Disentangle` calls applied to the pair. -/
def applyOps : List Bool → PairState → PairState
  | [], s => s
  | op :: rest, s => applyOps rest (disOp op s)

/-- The surviving-entry view of one transfer-list entry: the buffer index it
contributes to `array_buffers` when it is a detachable array buffer, nothing
when it is skipped. -/
def survEntry (dom : List ABuf) : TEntry → Option Nat
  | TEntry.ab i => if detachable dom i then some i else none
  | TEntry.other => none

/-- The registrations issued for a surviving list, ids starting at `n`. -/
def regsFrom (n : Nat) : List Nat → List (Nat × Nat)
  | [] => []
  | i :: rest => (n, i) :: regsFrom (n + 1) rest

/-! ### Lemmas about the transfer-list scan -/

lemma scan_none_iff (dom : List ABuf) (es : List TEntry) :
    ∀ acc : ScanAcc,
      scanTransferList dom es acc = none ↔ TEntry.other ∈ es := by
  induction es with
  | nil => intro acc; simp [scanTransferList]
  | cons e rest ih =>
      intro acc
      cases e with
      | ab i =>
          simp only [scanTransferList]
          by_cases hd : detachable dom i = true
          · rw [if_pos hd, ih]; simp
          · rw [if_neg hd, ih]; simp
      | other => simp [scanTransferList]

lemma scan_some_eq (dom : List ABuf) (es : List TEntry) :
    ∀ acc acc' : ScanAcc,
      scanTransferList dom es acc = some acc' →
      acc'.array_buffers = acc.array_buffers ++ es.filterMap (survEntry dom) ∧
      acc'.registrations = acc.registrations ++
        regsFrom acc.array_buffers.length (es.filterMap (survEntry dom)) := by
  induction es with
  | nil =>
      intro acc acc' h
      simp only [scanTransferList, Option.some.injEq] at h
      subst h
      simp [regsFrom]
  | cons e rest ih =>
      intro acc acc' h
      cases e with
      | ab i =>
          simp only [scanTransferList] at h
          by_cases hd : detachable dom i = true
          · rw [if_pos hd] at h
            obtain ⟨h1, h2⟩ := ih _ _ h
            constructor
            · rw [h1]
              simp [survEntry, hd, List.filterMap_cons]
            · rw [h2]
              simp [survEntry, hd, List.filterMap_cons, regsFrom]
          · rw [if_neg hd] at h
            obtain ⟨h1, h2⟩ := ih _ _ h
            constructor
            · rw [h1]
              simp [survEntry, hd, List.filterMap_cons]
            · rw [h2]
              simp [survEntry, hd, List.filterMap_cons]
      | other => simp [scanTransferList] at h

lemma regsFrom_mem (S : List Nat) :
    ∀ n k i : Nat, ((k, i) ∈ regsFrom n S) ↔ ∃ j, S.get? j = some i ∧ k = n + j := by
  induction S with
  | nil => intro n k i; simp [regsFrom]
  | cons a S ih =>
      intro n k i
      simp only [regsFrom, List.mem_cons, ih]
      constructor
      · rintro (h | ⟨j, hj, hk⟩)
        · have hk : k = n := (Prod.mk.injEq .. ▸ h).1
          have hi : i = a := (Prod.mk.injEq .. ▸ h).2
          exact ⟨0, by simp [List.get?, hi], by omega⟩
        · exact ⟨j + 1, by simpa [List.get?] using hj, by omega⟩
      · rintro ⟨j, hj, hk⟩
        cases j with
        | zero =>
            left
            simp only [List.get?, Option.some.injEq] at hj
            simp [hj, hk]
        | succ j =>
            right
            exact ⟨j, by simpa [List.get?] using hj, by omega⟩

/-- C2: the transfer-list scan throws `ERR_INVALID_TRANSFER_OBJECT` exactly
when some entry is not an array buffer; on success, the surviving list keeps
exactly the detachable array-buffer entries in order (non-detachable ones
are skipped, consuming no ids), and the encoder registrations pair each
surviving buffer with the dense id equal to its position in the surviving
list. -/
theorem transfer_list_scan (dom : List ABuf) (es : List TEntry) :
    (scanTransferList dom es ⟨[], []⟩ = none ↔ TEntry.other ∈ es) ∧
    ∀ acc, scanTransferList dom es ⟨[], []⟩ = some acc →
      acc.array_buffers = es.filterMap (survEntry dom) ∧
      (∀ i, i ∈ acc.array_buffers → detachable dom i = true) ∧
      (∀ k i, ((k, i) ∈ acc.registrations ↔ acc.array_buffers.get? k = some i)) := by
  refine ⟨scan_none_iff dom es ⟨[], []⟩, ?_⟩
  intro acc h
  obtain ⟨h1, h2⟩ := scan_some_eq dom es ⟨[], []⟩ acc h
  simp only [List.nil_append, List.length_nil] at h1 h2
  refine ⟨h1, ?_, ?_⟩
  · intro i hi
    rw [h1] at hi
    obtain ⟨e, _, hse⟩ := List.mem_filterMap.mp hi
    cases e with
    | ab j =>
        by_cases hd : detachable dom j = true
        · simp only [survEntry, if_pos hd, Option.some.injEq] at hse
          exact hse ▸ hd
        · simp [survEntry, hd] at hse
    | other => simp [survEntry] at hse
  · intro k i
    rw [h2, h1, regsFrom_mem]
    constructor
    · rintro ⟨j, hj, hk⟩
      have : k = j := by omega
      exact this ▸ hj
    · intro hget
      exact ⟨k, hget, by omega⟩

/-- A concrete sender domain: buffer 0 detachable, buffer 1 not neuterable,
buffer 2 already external. -/
def dom0 : List ABuf :=
  [⟨true, false, false, [1, 2]⟩, ⟨false, false, false, [3]⟩, ⟨true, true, false, [4]⟩]

/-- A concrete transfer list exercising transfer, the two skip cases and a
second transfer. -/
def es0 : List TEntry := [TEntry.ab 0, TEntry.ab 1, TEntry.ab 2, TEntry.ab 0]

/-- Witness for `transfer_list_scan` at a concrete domain and transfer
list. -/
theorem transfer_list_scan_witness :
    (scanTransferList dom0 [TEntry.other] ⟨[], []⟩ = none) ∧
    ((1, 0) ∈ (⟨[0, 0], [(0, 0), (1, 0)]⟩ : ScanAcc).registrations ↔
      (⟨[0, 0], [(0, 0), (1, 0)]⟩ : ScanAcc).array_buffers.get? 1 = some 0) :=
  ⟨(transfer_list_scan dom0 [TEntry.other]).1.mpr (by decide),
   ((transfer_list_scan dom0 es0).2 ⟨[0, 0], [(0, 0), (1, 0)]⟩ (by decide)).2.2 1 0⟩

/-! ### Lemmas about the externalization loop -/

lemma neuterAt_length (dom : List ABuf) (i : Nat) :
    (neuterAt dom i).length = dom.length :=
  List.length_set ..

lemma neuterAt_getD_neutered (dom : List ABuf) (i : Nat) (h : i < dom.length) :
    ((neuterAt dom i).getD i ABuf.null).neutered = true := by
  simp [neuterAt, List.getD_eq_getElem?_getD, List.getElem?_set_self h]

lemma neuterAt_getD_ne (dom : List ABuf) (j i : Nat) (h : i ≠ j) :
    (neuterAt dom j).getD i ABuf.null = dom.getD i ABuf.null := by
  simp [neuterAt, List.getD_eq_getElem?_getD, List.getElem?_set_ne (Ne.symm h)]

lemma externalizeAll_preserves_neutered (l : List Nat) :
    ∀ dom : List ABuf, ∀ i : Nat, i < dom.length →
      (dom.getD i ABuf.null).neutered = true →
      (((externalizeAll dom l).2).getD i ABuf.null).neutered = true := by
  induction l with
  | nil => intro dom i _ hn; simpa [externalizeAll] using hn
  | cons j rest ih =>
      intro dom i hi hn
      simp only [externalizeAll]
      apply ih (neuterAt dom j) i
      · rw [neuterAt_length]; exact hi
      · by_cases hij : i = j
        · subst hij; exact neuterAt_getD_neutered dom i hi
        · rw [neuterAt_getD_ne dom j i hij]; exact hn

lemma externalizeAll_neuters (l : List Nat) :
    ∀ dom : List ABuf, ∀ i : Nat, i ∈ l → i < dom.length →
      (((externalizeAll dom l).2).getD i ABuf.null).neutered = true := by
  induction l with
  | nil => intro dom i h; simp at h
  | cons j rest ih =>
      intro dom i hmem hi
      simp only [externalizeAll]
      rcases List.mem_cons.mp hmem with h | h
      · subst h
        apply externalizeAll_preserves_neutered rest (neuterAt dom i) i
        · rw [neuterAt_length]; exact hi
        · exact neuterAt_getD_neutered dom i hi
      · apply ih (neuterAt dom j) i h
        rw [neuterAt_length]; exact hi

/-- C1: externalization is a two-phase commit.  If `Serialize` fails (for
either error kind) the message is still the empty message and the sender's
domain is untouched — no buffer of the transfer list has been detached;
only when the body write succeeded does the message steal the surviving
buffers, each of which is then neutered in the sender's domain. -/
theorem serialize_externalization_commit (dom : List ABuf)
    (tl : Option (List TEntry)) (enc : Option (List Nat)) :
    ((Message.Serialize Message.empty dom tl enc).1 ≠ SerStatus.ok →
      (Message.Serialize Message.empty dom tl enc).2.1 = Message.empty ∧
      (Message.Serialize Message.empty dom tl enc).2.2 = dom) ∧
    ((Message.Serialize Message.empty dom tl enc).1 = SerStatus.ok →
      ∀ i, i ∈ survivingBuffers dom tl → i < dom.length →
        (((Message.Serialize Message.empty dom tl enc).2.2).getD i ABuf.null).neutered
          = true) := by
  constructor
  · intro hne
    rcases tl with _ | entries
    · rcases enc with _ | blob
      · simp [Message.Serialize]
      · exact absurd (by simp [Message.Serialize]) hne
    · cases hscan : scanTransferList dom entries ⟨[], []⟩ with
      | none => simp [Message.Serialize, hscan]
      | some acc =>
          rcases enc with _ | blob
          · simp [Message.Serialize, hscan]
          · exact absurd (by simp [Message.Serialize, hscan]) hne
  · intro hok i hmem hi
    rcases tl with _ | entries
    · simp [survivingBuffers] at hmem
    · cases hscan : scanTransferList dom entries ⟨[], []⟩ with
      | none => simp [survivingBuffers, hscan] at hmem
      | some acc =>
          rcases enc with _ | blob
          · simp [Message.Serialize, hscan] at hok
          · simp only [survivingBuffers, hscan] at hmem
            simp only [Message.Serialize, hscan]
            exact externalizeAll_neuters acc.array_buffers dom i hmem hi

/-- Witness for `serialize_externalization_commit`: at `dom0`/`es0`, a
failed body write leaves the message empty and the domain untouched, and a
successful one neuters the surviving buffer 0. -/
theorem serialize_externalization_commit_witness :
    ((Message.Serialize Message.empty dom0 (some es0) none).2.1 = Message.empty ∧
     (Message.Serialize Message.empty dom0 (some es0) none).2.2 = dom0) ∧
    (((Message.Serialize Message.empty dom0 (some es0) (some [9])).2.2).getD 0
        ABuf.null).neutered = true :=
  ⟨(serialize_externalization_commit dom0 (some es0) none).1 (by decide),
   (serialize_externalization_commit dom0 (some es0) (some [9])).2 (by decide) 0
     (by decide) (by decide)⟩

/-! ### Lemmas about the delivery loop -/

/-- A message on which the `||` chain of `OnMessage` reports failure: its
deserialized value is empty, or there is no `.onmessage` handler, or the
callback's result is empty. -/
def deliveryFails (hasHandler : Bool) (m : DMsg) : Bool :=
  !(m.deserializeOk && hasHandler && m.callbackOk)

lemma onMessageLoop_earlyReturn (canCall hasHandler hasData receiving : Bool)
    (q : List DMsg) :
    (onMessageLoop canCall hasHandler hasData receiving q).earlyReturn
      = (hasData && receiving && canCall && q.any (deliveryFails hasHandler)) := by
  induction q with
  | nil => simp [onMessageLoop]
  | cons m rest ih =>
      cases hasData with
      | false => simp [onMessageLoop]
      | true =>
          cases receiving with
          | false => simp [onMessageLoop]
          | true =>
              cases canCall with
              | false =>
                  simp only [onMessageLoop, Bool.and_self, if_true, Bool.false_eq_true,
                    if_false, ih]
                  simp [deliveryFails]
              | true =>
                  by_cases hm : (m.deserializeOk && hasHandler && m.callbackOk) = true
                  · simp [onMessageLoop, hm, ih, deliveryFails]
                  · simp [onMessageLoop, hm, deliveryFails,
                      Bool.not_eq_true _ ▸ hm]

lemma onMessageLoop_all_ok (q : List DMsg)
    (hok : ∀ m ∈ q, (m.deserializeOk && m.callbackOk) = true) :
    onMessageLoop true true true true q = ⟨[], q.map DMsg.payload, false, false⟩ := by
  induction q with
  | nil => simp [onMessageLoop]
  | cons m rest ih =>
      have hm := hok m (List.mem_cons_self m rest)
      have hcond : (m.deserializeOk && true && m.callbackOk) = true := by
        simpa using hm
      have hm' : m.deserializeOk = true ∧ m.callbackOk = true := by simpa using hm
      simp [onMessageLoop, hcond, hm'.1, hm'.2,
        ih (fun x hx => hok x (List.mem_cons_of_mem m hx))]

/-- C3 (amended): after the delivery loop, the Port is closed iff `data_`
is still owned, the sibling pointer is null, and the loop did not return
early on a delivery failure — queue emptiness is not part of the
condition. -/
theorem onmessage_close_condition (canCall hasHandler hasData receiving siblingNull : Bool)
    (q : List DMsg) :
    (onMessage canCall hasHandler hasData receiving siblingNull q).2
      = (hasData && siblingNull &&
          !(receiving && canCall && q.any (deliveryFails hasHandler))) := by
  simp only [onMessage, onMessageLoop_earlyReturn]
  cases hasData <;> cases receiving <;> cases canCall <;> cases siblingNull <;> simp

/-- Counterexample to C3 as stated: a stopped port whose sibling is closed
and whose queue still holds an undelivered message is closed at the end of
the delivery loop. -/
theorem onmessage_close_nonempty_queue_counterexample :
    (onMessage true true true false true [⟨0, true, true⟩]).2 = true ∧
    (onMessage true true true false true [⟨0, true, true⟩]).1.incoming
      = [⟨0, true, true⟩] := by decide

/-- C4 (amended): a message whose `Deserialize` yields an empty value is
popped from the queue and dropped, the async wake-up is re-armed and the
loop returns early — but `.onmessage` is not invoked for it, because the
empty value short-circuits before `MakeCallback`. -/
theorem deserialize_failure_in_loop (hasHandler : Bool) (m : DMsg) (rest : List DMsg)
    (hfail : m.deserializeOk = false) :
    onMessageLoop true hasHandler true true (m :: rest) = ⟨rest, [], true, true⟩ := by
  simp [onMessageLoop, hfail]

/-- Witness for `deserialize_failure_in_loop` at a concrete queue. -/
theorem deserialize_failure_in_loop_witness :
    onMessageLoop true true true true [⟨7, false, true⟩, ⟨8, true, true⟩]
      = ⟨[⟨8, true, true⟩], [], true, true⟩ :=
  deserialize_failure_in_loop true ⟨7, false, true⟩ [⟨8, true, true⟩] rfl

/-- Counterexample to C4 as stated: on a deserialization failure the
delivery loop performs zero `.onmessage` invocations (no out-of-band empty
argument is delivered), even though the message is dropped and the loop
re-arms and returns. -/
theorem deserialize_failure_no_callback_counterexample :
    (onMessageLoop true true true true [⟨7, false, true⟩]).calls = [] ∧
    (onMessageLoop true true true true [⟨7, false, true⟩]).incoming = [] ∧
    (onMessageLoop true true true true [⟨7, false, true⟩]).rearmed = true ∧
    (onMessageLoop true true true true [⟨7, false, true⟩]).earlyReturn = true := by
  decide

/-! ### Entanglement / disentanglement -/

/-- Two freshly constructed `MessagePortData` objects: null siblings, each
with its own sibling mutex (ids 0 and 1), next allocation id 2. -/
def initPair : PairState := ⟨false, false, 0, 1, 2⟩

/-- The pair right after `MessagePortData::Entangle`. -/
def entangled0 : PairState := entangle initPair

lemma applyOps_preserves_closed (ops : List Bool) :
    ∀ s : PairState, s.siblingA = false → s.siblingB = false →
      (applyOps ops s).siblingA = false ∧ (applyOps ops s).siblingB = false := by
  induction ops with
  | nil => intro s hA hB; exact ⟨hA, hB⟩
  | cons op rest ih =>
      intro s hA hB
      apply ih
      · cases op <;> simp [disOp, disentangleA, disentangleB, hA, hB]
      · cases op <;> simp [disOp, disentangleA, disentangleB, hA, hB]

/-- C5 (amended): after `Disentangle` on one member `A` of an entangled
pair, `A` holds a freshly allocated sibling mutex, while `B` retains the
previously shared mutex (only its own later `Disentangle` replaces it); the
two no longer share a mutex, and `is_sibling_closed()` is true on both
ex-siblings and stays true under every later `Disentangle`. -/
theorem disentangle_one_side (s : PairState)
    (hA : s.siblingA = true) (hmx : s.mutexA = s.mutexB)
    (hfresh : s.mutexB < s.fresh) :
    (disentangleA s).mutexA = s.fresh ∧
    (disentangleA s).mutexB = s.mutexA ∧
    (disentangleA s).mutexA ≠ (disentangleA s).mutexB ∧
    isSiblingClosedA (disentangleA s) = true ∧
    isSiblingClosedB (disentangleA s) = true ∧
    (∀ ops, isSiblingClosedA (applyOps ops (disentangleA s)) = true ∧
        isSiblingClosedB (applyOps ops (disentangleA s)) = true) := by
  refine ⟨rfl, hmx.symm ▸ rfl, ?_, ?_, ?_, ?_⟩
  · simp only [disentangleA]
    omega
  · simp [isSiblingClosedA, disentangleA]
  · simp [isSiblingClosedB, disentangleA, hA]
  · intro ops
    have h := applyOps_preserves_closed ops (disentangleA s)
      (by simp [disentangleA]) (by simp [disentangleA, hA])
    simp [isSiblingClosedA, isSiblingClosedB, h.1, h.2]

/-- Witness for `disentangle_one_side` on the concrete entangled pair. -/
theorem disentangle_one_side_witness :
    (disentangleA entangled0).mutexA = entangled0.fresh ∧
    (disentangleA entangled0).mutexB = entangled0.mutexA ∧
    isSiblingClosedB (applyOps [false, true] (disentangleA entangled0)) = true :=
  ⟨(disentangle_one_side entangled0 (by decide) (by decide) (by decide)).1,
   (disentangle_one_side entangled0 (by decide) (by decide) (by decide)).2.1,
   ((disentangle_one_side entangled0 (by decide) (by decide)
      (by decide)).2.2.2.2.2 [false, true]).2⟩

/-- Counterexample to C5 as stated: immediately after `Disentangle` on `A`,
the ex-sibling `B` still holds exactly the mutex that was shared before the
call (allocated before it — its id is below the allocation counter), not a
freshly allocated one. -/
theorem disentangle_sibling_keeps_old_mutex_counterexample :
    (disentangleA entangled0).mutexB = entangled0.mutexA ∧
    (disentangleA entangled0).mutexB < entangled0.fresh := by decide

/-! ### Send and post_message -/

/-- C6: a post on a port whose sibling pointer is null returns success
after a successful serialization and the message is silently dropped (the
sibling queue — the only place a sent message ever goes — is unchanged);
a failed serialization surfaces its error to the caller and enqueues
nothing, whatever the sibling state. -/
theorem send_null_sibling (dom : List ABuf) (tl : Option (List TEntry))
    (enc : Option (List Nat)) (sq : List Message) :
    ((Message.Serialize Message.empty dom tl enc).1 = SerStatus.ok →
      portSendArgs dom tl enc true sq
        = (SerStatus.ok, (Message.Serialize Message.empty dom tl enc).2.2, sq)) ∧
    (∀ siblingNull, (Message.Serialize Message.empty dom tl enc).1 ≠ SerStatus.ok →
      portSendArgs dom tl enc siblingNull sq
        = ((Message.Serialize Message.empty dom tl enc).1,
           (Message.Serialize Message.empty dom tl enc).2.2, sq)) := by
  constructor
  · intro hok
    rcases hser : Message.Serialize Message.empty dom tl enc with ⟨st, msg, dom'⟩
    rw [hser] at hok
    simp only at hok
    subst hok
    simp [portSendArgs, hser]
  · intro siblingNull hne
    rcases hser : Message.Serialize Message.empty dom tl enc with ⟨st, msg, dom'⟩
    rw [hser] at hne
    simp only at hne
    cases st with
    | ok => exact absurd rfl hne
    | errInvalidTransferObject => simp [portSendArgs, hser]
    | errCodec => simp [portSendArgs, hser]

/-- Witness for `send_null_sibling`: a successful serialization with a null
sibling succeeds and leaves the sibling queue empty; an invalid transfer
list surfaces its error. -/
theorem send_null_sibling_witness :
    portSendArgs dom0 none (some [5]) true []
      = (SerStatus.ok, (Message.Serialize Message.empty dom0 none (some [5])).2.2, []) ∧
    portSendArgs dom0 (some [TEntry.other]) (some [5]) false []
      = ((Message.Serialize Message.empty dom0 (some [TEntry.other]) (some [5])).1,
         (Message.Serialize Message.empty dom0 (some [TEntry.other]) (some [5])).2.2,
         []) :=
  ⟨(send_null_sibling dom0 none (some [5]) []).1 (by decide),
   (send_null_sibling dom0 (some [TEntry.other]) (some [5]) []).2 false (by decide)⟩

/-- C7: `postMessage` on a port whose `data_` is gone fails with
`CLOSED_MESSAGE_PORT`, and with zero arguments on an open port fails with
`MISSING_ARGS`; in both cases the sibling queue is unchanged and
`Serialize` is never reached. -/
theorem postmessage_guards (dom : List ABuf) (tl : Option (List TEntry))
    (enc : Option (List Nat)) (siblingNull : Bool) (sq : List Message) :
    (∀ nargs, postMessage false nargs dom tl enc siblingNull sq
        = (some PostErr.closedMessagePort, sq, false)) ∧
    postMessage true 0 dom tl enc siblingNull sq
      = (some PostErr.missingArgs, sq, false) := by
  exact ⟨fun nargs => rfl, rfl⟩

/-! ### FIFO ordering -/

/-- C8: two messages posted in sequence are appended at the back of the
FIFO queue by `AddToIncomingQueue`, the delivery loop drains the queue from
the front, so `.onmessage` sees every earlier message (and `m1`) before
`m2`; `Stop`/`Start` toggle only the receive flag and leave the queue
untouched. -/
theorem fifo_delivery_order (q : List DMsg) (m1 m2 : DMsg)
    (hok : ∀ m ∈ addToIncomingQueue (addToIncomingQueue q m1) m2,
        (m.deserializeOk && m.callbackOk) = true) :
    (onMessageLoop true true true true
        (addToIncomingQueue (addToIncomingQueue q m1) m2)).calls
      = q.map DMsg.payload ++ [m1.payload, m2.payload] ∧
    (onMessageLoop true true true true
        (addToIncomingQueue (addToIncomingQueue q m1) m2)).incoming = [] ∧
    (∀ d : PortDataM, (portStop d).incoming = d.incoming ∧
        (portStart d).1.incoming = d.incoming) := by
  refine ⟨?_, ?_, fun d => ⟨rfl, rfl⟩⟩
  · rw [onMessageLoop_all_ok _ hok]
    simp [addToIncomingQueue]
  · rw [onMessageLoop_all_ok _ hok]

/-- Witness for `fifo_delivery_order` on a concrete queue. -/
theorem fifo_delivery_order_witness :
    (onMessageLoop true true true true
        (addToIncomingQueue (addToIncomingQueue [⟨1, true, true⟩] ⟨2, true, true⟩)
          ⟨3, true, true⟩)).calls = [1, 2, 3] :=
  (fifo_delivery_order [⟨1, true, true⟩] ⟨2, true, true⟩ ⟨3, true, true⟩
    (by decide)).1

/-! ### Adoption of a pre-existing PortData -/

/-- C9 (amended): the adopt variant of `MessagePort::New` signals the async
wake-up unconditionally whenever a pre-existing `MessagePortData` is
supplied — whatever its queue — and only the no-data variant does not
signal. -/
theorem adopt_always_triggers (pd : PortDataM) :
    newPort (some pd) = (pd, true) ∧ (newPort none).2 = false :=
  ⟨rfl, rfl⟩

/-- Counterexample to C9 as stated: adopting a `MessagePortData` with an
empty incoming queue still signals the async wake-up, refuting the claimed
"if and only if the queue is non-empty". -/
theorem adopt_empty_queue_triggers_counterexample :
    (newPort (some ⟨[], false⟩)).2 = true ∧
    (newPort (some ⟨[], false⟩)).1.incoming = [] := by decide

/-! ### Deserialize hands over the buffers unconditionally -/

lemma attachAll_eq (cs : List (List Nat)) :
    ∀ rdom : List ABuf, attachAll rdom cs = rdom ++ cs.map mkInternalized := by
  induction cs with
  | nil => intro rdom; simp [attachAll]
  | cons c rest ih => intro rdom; simp [attachAll, ih]

/-- C10: after any `Message::Deserialize` call — header failure, read
failure or success — the message's `array_buffer_contents_` list is empty
and every buffer it held has been appended to the receiver's domain as an
internalized array buffer, because the attach loop and the `clear()` run
before the header is read. -/
theorem deserialize_clears_buffers (msg : Message) (rdom : List ABuf)
    (headerOk : Bool) (readValue : Option Nat) :
    (Message.Deserialize msg rdom headerOk readValue).2.1.array_buffer_contents = [] ∧
    (Message.Deserialize msg rdom headerOk readValue).2.2
      = rdom ++ msg.array_buffer_contents.map mkInternalized := by
  cases headerOk <;> simp [Message.Deserialize, attachAll_eq]

end NodeMessaging
